import Mathlib

/-!
Verification of the twmanga comic-archiver repository against its
natural-language specification.  The repository holds several source
variants (manga.py, manga2.py, manga3.py, manga3x.py, anime2.py and an
unnamed anime variant); each definition below is a shallow embedding of
one concrete function of one concrete file, named after it.  HTTP, HTML
parsing, image decoding and PDF encoding are external collaborators and
appear only through their results (lists of URLs, image dimensions, an
encoder success flag), exactly as the spec scopes them out.
-/

namespace Twmanga

/-! ## Generic Python-semantics helpers -/

/-- Python str.split(sep) for a single-character separator, on char lists:
always returns a non-empty list of (possibly empty) segments. -/
def pySplit (sep : Char) : List Char → List (List Char)
  | [] => [[]]
  | c :: cs =>
    match pySplit sep cs with
    | [] => [[]]
    | h :: t => if c = sep then [] :: h :: t else (c :: h) :: t

/-- Numeric value of a run of ASCII digits (most significant first). -/
def digitsVal (cs : List Char) : Nat :=
  cs.foldl (fun n c => 10 * n + (c.toNat - '0'.toNat)) 0

/-- Python int(s) as used on URL segments: succeeds exactly on a
non-empty all-digit string (the inputs these scripts produce are plain
non-negative ASCII numerals), raising ValueError - modelled as none -
otherwise. -/
def pyInt (cs : List Char) : Option Nat :=
  if cs ≠ [] ∧ cs.all Char.isDigit then some (digitsVal cs) else none

/-- Skip everything up to and including the first scheme separator
sequence colon-slash-slash, if present. -/
def afterSchemeSep : List Char → Option (List Char)
  | ':' :: '/' :: '/' :: rest => some rest
  | _ :: cs => afterSchemeSep cs
  | [] => none

/-- From the chars following the scheme separator, drop the netloc:
keep from the first slash on (empty path if no slash). -/
def dropNetloc : List Char → List Char
  | [] => []
  | c :: cs => if c = '/' then c :: cs else dropNetloc cs

/-- urlparse(url).path for the URL shapes these scripts handle: strip
fragment and query, and if a scheme separator is present drop scheme
and netloc, keeping the path from its leading slash. -/
def pyUrlPath (url : String) : String :=
  let cs := (url.data.takeWhile (· ≠ '#')).takeWhile (· ≠ '?')
  match afterSchemeSep cs with
  | some rest => ⟨dropNetloc rest⟩
  | none => ⟨cs⟩

/-! ## URL heuristics (claim C9) -/

/-- manga2.py extract_part_number: take the path, its last
slash-segment, the segment before the first dot, split on underscores;
the part number is int of the third piece when there are at least
three, else the default 1.  int failure (ValueError) is caught and
returns None. -/
def manga2_urlBase (url : String) : List Char :=
  let path := (pyUrlPath url).data
  let filename := (pySplit '/' path).getLastD []
  (pySplit '.' filename).headD []

def manga2_extract_part_number (url : String) : Option Nat :=
  let parts := pySplit '_' (manga2_urlBase url)
  if parts.length ≥ 3 then pyInt ((parts.drop 2).headD []) else some 1

/-- The regex search in manga3.py extract_part_number: an underscore,
one or more digits, then ".html" at the very end of the URL string.
Returns the digit value when the pattern matches. -/
def matchPartSuffix (cs : List Char) : Option Nat :=
  let rev := cs.reverse
  if rev.take 5 = ['l', 'm', 't', 'h', '.'] then
    let rest := rev.drop 5
    let ds := rest.takeWhile Char.isDigit
    if ds.isEmpty then none
    else if (rest.dropWhile Char.isDigit).headD ' ' = '_' then some (digitsVal ds.reverse)
    else none
  else none

/-- manga3.py extract_part_number: the regex match value, defaulting to
1 when the pattern is absent (and on any exception). -/
def manga3_extract_part_number (url : String) : Nat :=
  (matchPartSuffix url.data).getD 1

/-- Spec-side reading of "the path has a trailing numeric part suffix":
the string decomposes as prefix, underscore, a non-empty digit run and
a final ".html". -/
def HasPartSuffix (cs : List Char) : Prop :=
  ∃ pre ds : List Char,
    ds ≠ [] ∧ ds.all Char.isDigit ∧ cs = pre ++ '_' :: (ds ++ ['.', 'h', 't', 'm', 'l'])

theorem takeWhile_append_all {α : Type} {p : α → Bool} {l r : List α} {c : α}
    (hl : ∀ a ∈ l, p a = true) (hc : p c = false) :
    ((l ++ c :: r).takeWhile p = l) ∧ ((l ++ c :: r).dropWhile p = c :: r) := by
  induction l with
  | nil => simp [List.takeWhile_cons, List.dropWhile_cons, hc]
  | cons b bs ih =>
    have hb : p b = true := hl b (List.mem_cons_self b bs)
    have := ih fun a ha => hl a (List.mem_cons_of_mem b ha)
    simp [List.takeWhile_cons, List.dropWhile_cons, hb, this.1, this.2]

/-- Soundness of the regex model: a string shaped as prefix, underscore,
digits, ".html" is matched. -/
theorem matchPartSuffix_isSome_of_has (cs : List Char) (h : HasPartSuffix cs) :
    (matchPartSuffix cs).isSome := by
  obtain ⟨pre, ds, hne, hdig, rfl⟩ := h
  have hrev : (pre ++ '_' :: (ds ++ ['.', 'h', 't', 'm', 'l'])).reverse
      = 'l' :: 'm' :: 't' :: 'h' :: '.' :: (ds.reverse ++ '_' :: pre.reverse) := by
    simp
  have hall : ∀ a ∈ ds.reverse, Char.isDigit a = true := by
    intro a ha
    exact List.all_eq_true.mp hdig a (List.mem_reverse.mp ha)
  have hsplit := takeWhile_append_all (r := pre.reverse) hall (by decide : Char.isDigit '_' = false)
  have hds : ¬ (ds.reverse.isEmpty = true) := by
    simpa [List.isEmpty_iff] using hne
  simp only [matchPartSuffix, hrev, List.take_succ_cons, List.take_zero, List.drop_succ_cons,
    List.drop_zero, if_pos rfl, hsplit.1, hsplit.2]
  rw [if_neg hds, if_pos (by simp)]
  simp

/-- Completeness of the regex model: a match implies the string has the
underscore-digits-".html" decomposition. -/
theorem hasPartSuffix_of_matchPartSuffix {cs : List Char} {n : Nat}
    (h : matchPartSuffix cs = some n) : HasPartSuffix cs := by
  simp only [matchPartSuffix] at h
  by_cases htake : cs.reverse.take 5 = ['l', 'm', 't', 'h', '.']
  · rw [if_pos htake] at h
    by_cases hempty : ((cs.reverse.drop 5).takeWhile Char.isDigit).isEmpty = true
    · rw [if_pos hempty] at h
      exact absurd h (by simp)
    · rw [if_neg hempty] at h
      by_cases hhead : ((cs.reverse.drop 5).dropWhile Char.isDigit).headD ' ' = '_'
      · cases hdrop : (cs.reverse.drop 5).dropWhile Char.isDigit with
        | nil =>
          rw [hdrop] at hhead
          exact absurd hhead (by decide)
        | cons a tl =>
          rw [hdrop] at hhead
          simp only [List.headD_cons] at hhead
          subst hhead
          refine ⟨tl.reverse, ((cs.reverse.drop 5).takeWhile Char.isDigit).reverse, ?_, ?_, ?_⟩
          · simpa [List.isEmpty_iff] using hempty
          · refine List.all_eq_true.mpr fun a ha => ?_
            exact List.mem_takeWhile_imp (List.mem_reverse.mp ha)
          · have hres : cs.reverse.drop 5
                = (cs.reverse.drop 5).takeWhile Char.isDigit ++ '_' :: tl := by
              conv_lhs => rw [← List.takeWhile_append_dropWhile (p := Char.isDigit)
                (l := cs.reverse.drop 5)]
              rw [hdrop]
            have hrev5 : cs.reverse = ['l', 'm', 't', 'h', '.'] ++ cs.reverse.drop 5 := by
              conv_lhs => rw [← List.take_append_drop 5 cs.reverse]
              rw [htake]
            have hcs : cs = (cs.reverse).reverse := (List.reverse_reverse cs).symm
            rw [hcs, hrev5, hres]
            simp
            have hall2 : ∀ a ∈ (cs.reverse.drop 5).takeWhile Char.isDigit,
                Char.isDigit a = true := fun a ha => List.mem_takeWhile_imp ha
            rw [(takeWhile_append_all (r := tl) hall2 (by decide)).1]
      · rw [if_neg hhead] at h
        exact absurd h (by simp)
  · rw [if_neg htake] at h
    exact absurd h (by simp)

/-- C9 (amended): manga3.py extract_part_number returns the default 1
for every URL string without a trailing underscore-digits-".html"
suffix, and manga2.py extract_part_number returns the default 1
whenever the filename base has fewer than three underscore-separated
segments.  (When a third segment exists but is non-numeric, manga2
instead signals an error by returning None - see the counterexample.) -/
theorem extract_part_number_defaults :
    (∀ url : String, ¬ HasPartSuffix url.data → manga3_extract_part_number url = 1)
    ∧ (∀ url : String, (pySplit '_' (manga2_urlBase url)).length < 3 →
        manga2_extract_part_number url = some 1) := by
  constructor
  · intro url h
    unfold manga3_extract_part_number
    cases hm : matchPartSuffix url.data with
    | none => rfl
    | some n => exact absurd (hasPartSuffix_of_matchPartSuffix hm) h
  · intro url h
    unfold manga2_extract_part_number
    rw [if_neg (by omega)]

/-- Witness for C9: both defaults evaluated on concrete URLs. -/
theorem extract_part_number_defaults_witness :
    manga3_extract_part_number "https://x/page.html" = 1
    ∧ manga2_extract_part_number "https://x/0_5.html" = some 1 :=
  ⟨extract_part_number_defaults.1 "https://x/page.html"
      (fun h => absurd (matchPartSuffix_isSome_of_has _ h) (by decide)),
    extract_part_number_defaults.2 "https://x/0_5.html" (by decide)⟩

/-- C9 counterexample: the URL https://x/0_5_a.html has no trailing
numeric part suffix, yet manga2.py extract_part_number returns None
(the caught ValueError of int), not the claimed default 1. -/
theorem manga2_part_number_error_on_nonnumeric :
    ¬ HasPartSuffix ("https://x/0_5_a.html").data
    ∧ manga2_extract_part_number "https://x/0_5_a.html" = none :=
  ⟨fun h => absurd (matchPartSuffix_isSome_of_has _ h) (by decide), by decide⟩

/-! ## Idempotent skip (claim C2) -/

/-- manga3x.py: the canonical artifact path of a chapter. -/
def manga3x_chapterPdfPath (slot : String) : String :=
  "chapter_" ++ slot ++ ".pdf"

/-- manga3x.py: pathlib with_suffix(".part<k>.pdf") applied to the
canonical path - the ".pdf" suffix is replaced, giving
chapter_<slot>.part<k>.pdf. -/
def manga3x_partPdfPath (slot : String) (k : Nat) : String :=
  "chapter_" ++ slot ++ ".part" ++ toString k ++ ".pdf"

/-- Observable effects of manga3x.py process_chapter_wrapper on one
chapter: whether it took the skip path, how many part pages the
traversal fetched, how many image downloads were attempted, and which
PDF files were written. -/
structure ChapterRun where
  skipped : Bool
  partPagesFetched : Nat
  downloadsAttempted : Nat
  written : List String
deriving DecidableEq

/-- manga3x.py process_chapter_wrapper: when the canonical pdf path
already exists and force is not set, return immediately - no
traversal, no downloads, no writes.  Otherwise run process_chapter
(whose traversal fetches partsFetched part pages, abstracted), attempt
a download per collected URL, and write the valid files as PDF batches
of ten, each batch to the with_suffix part path - never to the
canonical path. -/
def manga3x_process_chapter_wrapper (existing : List String) (force : Bool)
    (slot : String) (partsFetched : Nat) (imageUrls : List String)
    (validCount : Nat) : ChapterRun :=
  if force = false ∧ manga3x_chapterPdfPath slot ∈ existing then
    ⟨true, 0, 0, []⟩
  else
    ⟨false, partsFetched, imageUrls.length,
      (List.range ((validCount + 9) / 10)).map (manga3x_partPdfPath slot)⟩

theorem manga3x_partPdfPath_ne (slot : String) (k : Nat) :
    manga3x_partPdfPath slot k ≠ manga3x_chapterPdfPath slot := by
  intro h
  have hd := congrArg String.data h
  simp only [manga3x_partPdfPath, manga3x_chapterPdfPath, String.data_append,
    List.append_assoc] at hd
  have h1 := List.append_cancel_left hd
  have h2 := List.append_cancel_left h1
  have h3 := congrArg List.length h2
  simp [List.length_append] at h3

/-- C2 (amended): if the canonical artifact path exists and force is
not set, manga3x.py process_chapter_wrapper returns immediately with
the chapter skipped - zero part pages fetched, zero downloads, nothing
written.  However, no run ever writes the canonical path itself (all
outputs go to the .part<k>.pdf names), so a successful first run does
not create the skip marker and a second run cannot resolve the chapter
via the skip path. -/
theorem manga3x_skip_and_canonical_never_written (existing : List String)
    (force : Bool) (slot : String) (partsFetched : Nat)
    (imageUrls : List String) (validCount : Nat) (hforce : force = false)
    (hex : manga3x_chapterPdfPath slot ∈ existing) :
    manga3x_process_chapter_wrapper existing force slot partsFetched
        imageUrls validCount = ⟨true, 0, 0, []⟩
    ∧ ∀ (existing2 : List String) (force2 : Bool) (pf2 : Nat)
        (urls2 : List String) (vc2 : Nat),
        manga3x_chapterPdfPath slot ∉
          (manga3x_process_chapter_wrapper existing2 force2 slot pf2 urls2 vc2).written := by
  constructor
  · rw [manga3x_process_chapter_wrapper, if_pos ⟨hforce, hex⟩]
  · intro existing2 force2 pf2 urls2 vc2
    rw [manga3x_process_chapter_wrapper]
    by_cases hc : force2 = false ∧ manga3x_chapterPdfPath slot ∈ existing2
    · rw [if_pos hc]
      simp
    · rw [if_neg hc]
      intro hmem
      simp only [List.mem_map] at hmem
      obtain ⟨k, _, hk⟩ := hmem
      exact manga3x_partPdfPath_ne slot k hk

/-- Witness for C2: the skip path taken on a concrete existing
artifact. -/
theorem manga3x_skip_witness :
    manga3x_process_chapter_wrapper ["chapter_7.pdf"] false "7" 3 ["a", "b"] 2
      = ⟨true, 0, 0, []⟩ :=
  (manga3x_skip_and_canonical_never_written ["chapter_7.pdf"] false "7" 3
    ["a", "b"] 2 rfl (by decide)).1

/-- C2 counterexample: a first run in a fresh directory processes the
chapter and writes only chapter_5.part0.pdf; the canonical
chapter_5.pdf is not among its outputs, so a second run over the
unchanged result does not take the skip path and fetches the part
pages again. -/
theorem manga3x_second_run_not_skipped :
    (manga3x_process_chapter_wrapper [] false "5" 2 ["u1.jpg"] 1).written
      = ["chapter_5.part0.pdf"]
    ∧ manga3x_chapterPdfPath "5" ∉
        (manga3x_process_chapter_wrapper [] false "5" 2 ["u1.jpg"] 1).written
    ∧ (manga3x_process_chapter_wrapper
        (manga3x_process_chapter_wrapper [] false "5" 2 ["u1.jpg"] 1).written
        false "5" 2 ["u1.jpg"] 1).skipped = false
    ∧ (manga3x_process_chapter_wrapper
        (manga3x_process_chapter_wrapper [] false "5" 2 ["u1.jpg"] 1).written
        false "5" 2 ["u1.jpg"] 1).partPagesFetched = 2 := by
  refine ⟨?_, ?_, ?_, ?_⟩ <;> decide

/-! ## Artifact page order (claim C1) -/

/-- Python string comparison: lexicographic on the code points. -/
def charListLe : List Char → List Char → Bool
  | [], _ => true
  | _ :: _, [] => false
  | a :: as, b :: bs =>
    if a.toNat < b.toNat then true
    else if b.toNat < a.toNat then false
    else charListLe as bs

def pyStrLe (a b : String) : Bool :=
  charListLe a.data b.data

/-- Python sorted on strings: a stable sort by the lexicographic string
order; insertion sort realises exactly that. -/
def pySortedStrings (l : List String) : List String :=
  List.insertionSort (fun a b : String => pyStrLe a b = true) l

/-- manga3.py process_chapter_images step 3: the scratch filename for
image j of part i (both 1-based, not zero-padded). -/
def manga3_saveName (partIdx imgIdx : Nat) : String :=
  "part" ++ toString partIdx ++ "_img" ++ toString imgIdx ++ ".jpg"

/-- The chapter's scratch filenames in sequenceIndex order (part order,
then in-page order); counts lists how many images each part contributed
in part order. -/
def manga3_sequenceNames (counts : List Nat) : List String :=
  (counts.enum.map fun p =>
    (List.range p.2).map fun j => manga3_saveName (p.1 + 1) (j + 1)).flatten

/-- manga3.py convert_images_to_pdf: the pages are emitted in
sorted(...) order of the scratch paths collected by the os.walk
validation pass (the sort makes the walk order irrelevant, but the sort
itself is lexicographic on the unpadded names). -/
def manga3_pageOrder (files : List String) : List String :=
  pySortedStrings files

/-- C1: a one-part chapter with ten images, all downloaded and valid.
The artifact page order the code produces is the lexicographic order of
the unpadded filenames, which puts image 10 right after image 1 - it is
not the sequenceIndex order the claim states. -/
theorem manga3_page_order_breaks_at_ten_images :
    manga3_pageOrder (manga3_sequenceNames [10]) ≠ manga3_sequenceNames [10]
    ∧ manga3_pageOrder (manga3_sequenceNames [10])
      = ["part1_img1.jpg", "part1_img10.jpg", "part1_img2.jpg", "part1_img3.jpg",
         "part1_img4.jpg", "part1_img5.jpg", "part1_img6.jpg", "part1_img7.jpg",
         "part1_img8.jpg", "part1_img9.jpg"] := by
  refine ⟨?_, ?_⟩ <;> decide

/-! ## Part traversal (claim C3) -/

/-- anime2.py configuration constant MAX_PARTS_PER_CHAPTER. -/
def MAX_PARTS_PER_CHAPTER : Nat := 10

/-- anime2.py process_chapter, traversal skeleton: while current_url is
truthy (non-empty) and part_number has not passed MAX_PARTS_PER_CHAPTER,
visit the current URL, then advance to
generate_next_part_url(chapter link, part_number + 1).  The generator -
pure string surgery on the fixed chapter link - is abstracted as an
arbitrary function from the next part number to the next URL.  The fuel
argument dominates the remaining loop iterations, so it never runs out
while the guard holds. -/
def anime2_traverseAux (gen : Nat → String) : Nat → String → Nat → List String
  | 0, _, _ => []
  | fuel + 1, current, pn =>
    if current ≠ "" ∧ pn ≤ MAX_PARTS_PER_CHAPTER then
      current :: anime2_traverseAux gen fuel (gen (pn + 1)) (pn + 1)
    else []

def anime2_sourceUrls (gen : Nat → String) (link : String) : List String :=
  anime2_traverseAux gen (MAX_PARTS_PER_CHAPTER + 1) link 1

theorem anime2_traverseAux_length (gen : Nat → String) (fuel : Nat) :
    ∀ (cur : String) (pn : Nat),
      (anime2_traverseAux gen fuel cur pn).length ≤ (MAX_PARTS_PER_CHAPTER + 1) - pn := by
  induction fuel with
  | zero => intro cur pn; simp [anime2_traverseAux]
  | succ fuel ih =>
    intro cur pn
    rw [anime2_traverseAux]
    by_cases h : cur ≠ "" ∧ pn ≤ MAX_PARTS_PER_CHAPTER
    · rw [if_pos h]
      have := ih (gen (pn + 1)) (pn + 1)
      have hpn := h.2
      simp only [List.length_cons]
      unfold MAX_PARTS_PER_CHAPTER at *
      omega
    · rw [if_neg h]
      simp

/-- C3 (amended): the anime2.py traversal visits at most
MAX_PARTS_PER_CHAPTER = 10 parts per chapter, whatever URLs the
next-part generator produces.  The manga3.py process_chapter loop cited
by the claim has no such cap and keeps walking a cyclic navigation
graph (see the counterexample). -/
theorem anime2_traversal_cap (gen : Nat → String) (link : String) :
    (anime2_sourceUrls gen link).length ≤ MAX_PARTS_PER_CHAPTER := by
  have := anime2_traverseAux_length gen (MAX_PARTS_PER_CHAPTER + 1) link 1
  unfold anime2_sourceUrls
  omega

/-- manga3.py extract_url_slot: last underscore-segment of the URL
path, up to its first dot. -/
def manga3_extract_url_slot (url : String) : String :=
  ⟨(pySplit '.' ((pySplit '_' (pyUrlPath url).data).getLastD [])).headD []⟩

/-- manga3.py process_chapter loop: visit the current URL (kept when
its slot matches the chapter slot), ask get_next_part - abstracted as
the function from a page URL to the link it selects - and continue
while a next link exists and stays in the chapter slot.  The source
loop has no part cap; the fuel argument merely truncates this model,
so any visit count the model reaches is also reached by the real
loop. -/
def manga3_traverse (next : String → Option String) (slot : String) :
    Nat → String → List String
  | 0, _ => []
  | fuel + 1, current =>
    let visited := if manga3_extract_url_slot current = slot then [current] else []
    match next current with
    | none => visited
    | some u =>
      if manga3_extract_url_slot u ≠ slot then visited
      else visited ++ manga3_traverse next slot fuel u

/-- A two-cycle navigation graph inside chapter slot 5: each page
selects the other as its next part. -/
def cycNext : String → Option String := fun u =>
  if u = "https://t/0_5.html" then some "https://t/1_5.html"
  else if u = "https://t/1_5.html" then some "https://t/0_5.html"
  else none

/-- C3 counterexample: on the cyclic graph the manga3.py traversal has
already visited 11 parts - more than the configured cap of 10 - and is
still going; it does not terminate within the cap. -/
theorem manga3_traversal_uncapped_on_cycle :
    (manga3_traverse cycNext "5" 11 "https://t/0_5.html").length = 11
    ∧ ¬ ((manga3_traverse cycNext "5" 11 "https://t/0_5.html").length
          ≤ MAX_PARTS_PER_CHAPTER) := by
  refine ⟨?_, ?_⟩ <;> decide

/-! ## Image reference extraction and deduplication (claim C4) -/

/-- Python str.endswith, on the underlying characters. -/
def pyEndsWith (s suffix : String) : Bool :=
  suffix.data.isSuffixOf s.data

/-- manga3.py extract_image_urls, final line: one pass over the URLs
collected from one part page, keeping a URL when it ends in ".jpg" and
was not seen before; the seen set is local to this single part. -/
def manga3_extract_dedup (seen : List String) : List String → List String
  | [] => []
  | u :: us =>
    if pyEndsWith u ".jpg" then
      if u ∈ seen then manga3_extract_dedup seen us
      else u :: manga3_extract_dedup (u :: seen) us
    else manga3_extract_dedup seen us

def manga3_extract_image_urls (urls : List String) : List String :=
  manga3_extract_dedup [] urls

/-- manga3.py process_chapter_images: each part runs
extract_image_urls independently (fresh seen set per part) and the
download list is their concatenation, so cross-part duplicates
survive. -/
def manga3_chapterImageUrls (parts : List (List String)) : List String :=
  (parts.map manga3_extract_image_urls).flatten

/-- manga.py process_chapter, image loop of one part: one shared seen
set; returns the URLs newly appended and the updated seen set. -/
def manga_partScan (seen : List String) : List String → List String × List String
  | [] => ([], seen)
  | u :: us =>
    if u ∈ seen then manga_partScan seen us
    else
      let r := manga_partScan (u :: seen) us
      (u :: r.1, r.2)

/-- manga.py process_chapter: the parts are walked in order, threading
one seen set and one image list through the whole chapter. -/
def manga_chapterScan (seen : List String) : List (List String) → List String
  | [] => []
  | part :: rest =>
    let r := manga_partScan seen part
    r.1 ++ manga_chapterScan r.2 rest

def manga_chapterImageUrls (parts : List (List String)) : List String :=
  manga_chapterScan [] parts

theorem manga_partScan_spec (us : List String) (seen : List String) :
    (manga_partScan seen us).1.Nodup
    ∧ (∀ u, u ∈ (manga_partScan seen us).1 ↔ (u ∈ us ∧ u ∉ seen))
    ∧ (∀ u, u ∈ (manga_partScan seen us).2 ↔ (u ∈ seen ∨ u ∈ us)) := by
  induction us generalizing seen with
  | nil => simp [manga_partScan]
  | cons a as ih =>
    by_cases ha : a ∈ seen
    · have h := ih seen
      refine ⟨?_, ?_, ?_⟩
      · simpa [manga_partScan, ha] using h.1
      · intro u
        rw [manga_partScan, if_pos ha]
        rw [h.2.1 u]
        constructor
        · exact fun hu => ⟨List.mem_cons_of_mem a hu.1, hu.2⟩
        · rintro ⟨hu1, hu2⟩
          rcases List.mem_cons.mp hu1 with rfl | hmem
          · exact absurd ha hu2
          · exact ⟨hmem, hu2⟩
      · intro u
        rw [manga_partScan, if_pos ha]
        rw [h.2.2 u]
        constructor
        · rintro (h1 | h2)
          · exact Or.inl h1
          · exact Or.inr (List.mem_cons_of_mem a h2)
        · rintro (h1 | h2)
          · exact Or.inl h1
          · rcases List.mem_cons.mp h2 with rfl | hmem
            · exact Or.inl ha
            · exact Or.inr hmem
    · have h := ih (a :: seen)
      refine ⟨?_, ?_, ?_⟩
      · rw [manga_partScan, if_neg ha]
        refine List.nodup_cons.mpr ⟨?_, h.1⟩
        intro hmem
        exact ((h.2.1 a).mp hmem).2 (List.mem_cons_self a seen)
      · intro u
        rw [manga_partScan, if_neg ha]
        simp only [List.mem_cons, h.2.1 u]
        constructor
        · rintro (rfl | ⟨h1, h2⟩)
          · exact ⟨Or.inl rfl, ha⟩
          · exact ⟨Or.inr h1, fun hs => h2 (Or.inr hs)⟩
        · rintro ⟨(rfl | h1), h2⟩
          · exact Or.inl rfl
          · by_cases hu : u = a
            · exact Or.inl hu
            · exact Or.inr ⟨h1, fun hs => by
                rcases hs with h3 | h3
                · exact hu h3
                · exact h2 h3⟩
      · intro u
        rw [manga_partScan, if_neg ha]
        rw [h.2.2 u]
        simp only [List.mem_cons]
        tauto

theorem manga_chapterScan_spec (parts : List (List String)) (seen : List String) :
    (manga_chapterScan seen parts).Nodup
    ∧ ∀ u, u ∈ manga_chapterScan seen parts ↔ (u ∈ parts.flatten ∧ u ∉ seen) := by
  induction parts generalizing seen with
  | nil => simp [manga_chapterScan]
  | cons part rest ih =>
    have hp := manga_partScan_spec part seen
    have hr := ih (manga_partScan seen part).2
    constructor
    · rw [manga_chapterScan]
      refine List.nodup_append.mpr ⟨hp.1, hr.1, ?_⟩
      intro u hu1 hu2
      have h1 := (hp.2.1 u).mp hu1
      have h2 := (hr.2 u).mp hu2
      exact h2.2 ((hp.2.2 u).mpr (Or.inr h1.1))
    · intro u
      rw [manga_chapterScan, List.mem_append, hp.2.1 u, hr.2 u, hp.2.2 u, List.flatten_cons,
        List.mem_append]
      tauto

theorem manga3_extract_dedup_nodup (us : List String) (seen : List String) :
    (manga3_extract_dedup seen us).Nodup
    ∧ ∀ u, u ∈ manga3_extract_dedup seen us →
        (u ∈ us ∧ pyEndsWith u ".jpg" = true ∧ u ∉ seen) := by
  induction us generalizing seen with
  | nil => simp [manga3_extract_dedup]
  | cons a as ih =>
    by_cases hjpg : pyEndsWith a ".jpg" = true
    · by_cases ha : a ∈ seen
      · have h := ih seen
        rw [manga3_extract_dedup, if_pos hjpg, if_pos ha]
        exact ⟨h.1, fun u hu => by
          have := h.2 u hu
          exact ⟨List.mem_cons_of_mem a this.1, this.2.1, this.2.2⟩⟩
      · have h := ih (a :: seen)
        rw [manga3_extract_dedup, if_pos hjpg, if_neg ha]
        refine ⟨List.nodup_cons.mpr ⟨?_, h.1⟩, ?_⟩
        · intro hmem
          exact (h.2 a hmem).2.2 (List.mem_cons_self a seen)
        · intro u hu
          rcases List.mem_cons.mp hu with rfl | hmem
          · exact ⟨List.mem_cons_self u as, hjpg, ha⟩
          · have := h.2 u hmem
            exact ⟨List.mem_cons_of_mem a this.1, this.2.1,
              fun hs => this.2.2 (List.mem_cons_of_mem a hs)⟩
    · have h := ih seen
      rw [manga3_extract_dedup, if_neg hjpg]
      exact ⟨h.1, fun u hu => by
        have := h.2 u hu
        exact ⟨List.mem_cons_of_mem a this.1, this.2.1, this.2.2⟩⟩

/-- C4 (amended): in manga.py the deduplication is chapter-wide - the
collected chapter image list has no duplicate URL and contains exactly
the URLs of the fetched parts - while in manga3.py deduplication is
only per part (each part has no internal duplicate), and a URL repeated
across two different parts is kept once per part (see the
counterexample). -/
theorem chapter_dedup_scopes (parts : List (List String)) :
    (manga_chapterImageUrls parts).Nodup
    ∧ (∀ u, u ∈ manga_chapterImageUrls parts ↔ u ∈ parts.flatten)
    ∧ ∀ part : List String, (manga3_extract_image_urls part).Nodup := by
  have h := manga_chapterScan_spec parts []
  refine ⟨h.1, ?_, ?_⟩
  · intro u
    rw [manga_chapterImageUrls, h.2 u]
    simp
  · intro part
    exact (manga3_extract_dedup_nodup part []).1

/-- C4 counterexample: an identical image URL appearing in two
different fetched parts of one chapter yields two entries in the
manga3.py chapter download list (two downloads and two pages), not the
claimed single ImageRef. -/
theorem manga3_cross_part_duplicate_kept_twice :
    (manga3_chapterImageUrls [["u.jpg"], ["u.jpg"]]).count "u.jpg" = 2
    ∧ ¬ ((manga3_chapterImageUrls [["u.jpg"], ["u.jpg"]]).count "u.jpg" ≤ 1) := by
  refine ⟨?_, ?_⟩ <;> decide

/-! ## Next-part selection (claim C5) -/

/-- Python substring containment (needle in hay). -/
def listHasSub (needle : List Char) : List Char → Bool
  | [] => needle.isEmpty
  | c :: t => needle.isPrefixOf (c :: t) || listHasSub needle t

def strContains (hay needle : String) : Bool :=
  listHasSub needle.data hay.data

/-- A navigation link collected from the next_chapter divs: its cleaned
absolute URL and its (lowercased) link text. -/
structure NavCandidate where
  url : String
  text : String
deriving DecidableEq

def nextKeywordsZh : List String := ["下一頁", "下一章", "下一页"]

def nextKeywordsEn : List String := ["next", "continue"]

/-- The candidate loop of manga2.py get_next_part (the same loop, with a
trailing slot check, appears in manga3.py get_next_part): for each
candidate in page order, try the part-number-sequence check, then the
Chinese keyword check, then the English keyword check, and return the
first hit. -/
def manga2_get_next_part_select (currentPart : Nat) : List NavCandidate → Option String
  | [] => none
  | c :: cs =>
    if manga2_extract_part_number c.url == some (currentPart + 1) then some c.url
    else if nextKeywordsZh.any (fun k => strContains c.text k) then some c.url
    else if nextKeywordsEn.any (fun k => strContains c.text k) then some c.url
    else manga2_get_next_part_select currentPart cs

/-- A candidate satisfying any one of the three selection rules. -/
def candidateHit (currentPart : Nat) (c : NavCandidate) : Bool :=
  (manga2_extract_part_number c.url == some (currentPart + 1))
  || nextKeywordsZh.any (fun k => strContains c.text k)
  || nextKeywordsEn.any (fun k => strContains c.text k)

/-- C5 (amended): the selection scans candidates in page order and
returns the first candidate matching any rule, applying the
number-sequence rule before the keyword rules only within each single
candidate; so an earlier keyword-only candidate wins over a later
candidate whose derived part number is exactly n+1. -/
theorem get_next_part_first_candidate_wins (n : Nat) (cs : List NavCandidate) :
    manga2_get_next_part_select n cs = (cs.find? (candidateHit n)).map NavCandidate.url := by
  induction cs with
  | nil => rfl
  | cons c cs ih =>
    simp only [manga2_get_next_part_select, List.find?_cons]
    by_cases h1 : (manga2_extract_part_number c.url == some (n + 1)) = true <;>
      by_cases h2 : (nextKeywordsZh.any (fun k => strContains c.text k)) = true <;>
        by_cases h3 : (nextKeywordsEn.any (fun k => strContains c.text k)) = true <;>
          simp [candidateHit, h1, h2, h3, ih]

/-- C5 counterexample: from a part-1 page, the candidate list holds a
keyword-matching link to part 9 followed by the exact part-2 link; the
code returns the keyword candidate although a candidate with derived
part number n+1 = 2 is present among the candidates. -/
theorem keyword_candidate_beats_sequence_candidate :
    manga2_extract_part_number "https://t/c/0_5.html" = some 1
    ∧ manga2_get_next_part_select 1
        [⟨"https://t/c/0_5_9.html", "next"⟩, ⟨"https://t/c/0_5_2.html", "prev"⟩]
        = some "https://t/c/0_5_9.html"
    ∧ manga2_extract_part_number "https://t/c/0_5_2.html" = some 2
    ∧ manga2_extract_part_number "https://t/c/0_5_9.html" ≠ some 2 := by
  refine ⟨?_, ?_, ?_, ?_⟩ <;> decide

/-! ## Filename sanitization (claim C10) -/

/-- The character class of re.sub in manga3.py sanitize_filename. -/
def invalidFilenameChar (c : Char) : Bool :=
  c = '<' || c = '>' || c = ':' || c = '"' || c = '/' || c = '\\' || c = '|' || c = '?' || c = '*'

/-- re.sub of the invalid-character class with an underscore. -/
def pySubInvalid (cs : List Char) : List Char :=
  cs.map fun c => if invalidFilenameChar c then '_' else c

/-- Python str.strip(): drop whitespace from both ends. -/
def pyStrip (cs : List Char) : List Char :=
  ((cs.dropWhile Char.isWhitespace).reverse.dropWhile Char.isWhitespace).reverse

/-- manga3.py sanitize_filename: substitute the invalid characters by
underscores, then strip surrounding whitespace. -/
def sanitize_filename (s : String) : String :=
  ⟨pyStrip (pySubInvalid s.data)⟩

theorem pyStrip_eq_rdropWhile (cs : List Char) :
    pyStrip cs = List.rdropWhile Char.isWhitespace (cs.dropWhile Char.isWhitespace) := rfl

theorem pySubInvalid_not_invalid (cs : List Char) :
    ∀ c ∈ pySubInvalid cs, invalidFilenameChar c = false := by
  intro c hc
  simp only [pySubInvalid, List.mem_map] at hc
  obtain ⟨a, _, rfl⟩ := hc
  by_cases h : invalidFilenameChar a
  · simp only [if_pos h]
    decide
  · simp only [if_neg h]
    cases hx : invalidFilenameChar a
    · rfl
    · exact absurd hx h

theorem pySubInvalid_eq_self (cs : List Char)
    (h : ∀ c ∈ cs, invalidFilenameChar c = false) : pySubInvalid cs = cs := by
  unfold pySubInvalid
  have := List.map_congr_left (l := cs) (f := fun c => if invalidFilenameChar c then '_' else c)
    (g := id) (fun a ha => by simp [h a ha])
  simpa using this

theorem pyStrip_mem (cs : List Char) : ∀ c ∈ pyStrip cs, c ∈ cs := by
  intro c hc
  rw [pyStrip_eq_rdropWhile] at hc
  have h1 := (List.rdropWhile_prefix Char.isWhitespace
    (cs.dropWhile Char.isWhitespace)).sublist.subset hc
  exact (List.dropWhile_suffix Char.isWhitespace).sublist.subset h1

theorem dropWhile_eq_cons_head_false {α : Type} {p : α → Bool} {l t : List α} {a : α}
    (h : l.dropWhile p = a :: t) : p a = false := by
  induction l with
  | nil => simp [List.dropWhile] at h
  | cons b bs ih =>
    rw [List.dropWhile_cons] at h
    by_cases hb : p b = true
    · rw [if_pos hb] at h
      exact ih h
    · rw [if_neg hb] at h
      cases h
      cases hx : p a
      · rfl
      · exact absurd hx hb

theorem pyStrip_idem (cs : List Char) : pyStrip (pyStrip cs) = pyStrip cs := by
  rw [pyStrip_eq_rdropWhile, pyStrip_eq_rdropWhile]
  have h1 : (List.rdropWhile Char.isWhitespace
      (cs.dropWhile Char.isWhitespace)).dropWhile Char.isWhitespace
      = List.rdropWhile Char.isWhitespace (cs.dropWhile Char.isWhitespace) := by
    cases hst : List.rdropWhile Char.isWhitespace (cs.dropWhile Char.isWhitespace) with
    | nil => simp
    | cons a rest =>
      obtain ⟨t, ht⟩ := List.rdropWhile_prefix Char.isWhitespace
        (cs.dropWhile Char.isWhitespace)
      rw [hst] at ht
      have ha : Char.isWhitespace a = false :=
        dropWhile_eq_cons_head_false (t := rest ++ t) (by rw [← ht]; simp)
      simp [List.dropWhile_cons, ha]
  rw [h1, List.rdropWhile_idempotent]

/-- C10: sanitize_filename is idempotent: applying it a second time
changes nothing, because the first pass leaves no character of the
invalid class and no surrounding whitespace. -/
theorem sanitize_filename_idempotent (s : String) :
    sanitize_filename (sanitize_filename s) = sanitize_filename s := by
  unfold sanitize_filename
  have hdata : (String.mk (pyStrip (pySubInvalid s.data))).data
      = pyStrip (pySubInvalid s.data) := rfl
  rw [hdata]
  have hsub : pySubInvalid (pyStrip (pySubInvalid s.data)) = pyStrip (pySubInvalid s.data) :=
    pySubInvalid_eq_self _ fun c hc =>
      pySubInvalid_not_invalid s.data c (pyStrip_mem _ c hc)
  rw [hsub, pyStrip_idem]


/-! ## Chapter outcome from valid images (claim C7) -/

/-- A downloaded image file in the chapter scratch directory: its path
and decoded pixel dimensions. -/
structure ImgFile where
  path : String
  width : Nat
  height : Nat
deriving DecidableEq

/-- The validation threshold of manga3.py process_chapter_images step 6:
both dimensions at least 100 pixels. -/
def manga3_validImage (f : ImgFile) : Bool :=
  decide (100 ≤ f.width) && decide (100 ≤ f.height)

/-- Step 6 of process_chapter_images: keep the downloaded files whose
decoded dimensions pass the threshold; the rejected ones are logged as
skipped and their scratch files removed. -/
def manga3_validImages (files : List ImgFile) : List ImgFile :=
  files.filter manga3_validImage

/-- sorted(image_paths) inside convert_images_to_pdf, lifted to the
decoded files: a stable sort by path. -/
def pySortedFiles (files : List ImgFile) : List ImgFile :=
  List.insertionSort (fun f g : ImgFile => pyStrLe f.path g.path = true) files

/-- The page list convert_images_to_pdf assembles: walk the sorted
paths, skipping any image with width < 100 or height < 100. -/
def manga3_convert_pages (files : List ImgFile) : List ImgFile :=
  (pySortedFiles files).filter
    (fun f => !(decide (f.width < 100) || decide (f.height < 100)))

/-- manga3.py artifact path: output_dir/chapter_<slot>_<sanitized
title>.pdf. -/
def manga3_pdfPath (outputDir slot title : String) : String :=
  outputDir ++ "/chapter_" ++ slot ++ "_" ++ sanitize_filename title ++ ".pdf"

/-- Terminal result of process_chapter_images for one chapter: an
artifact with its page list, or the failure return value None. -/
inductive ChapterOutcome where
  | artifact (path : String) (pages : List ImgFile) : ChapterOutcome
  | failed : ChapterOutcome
deriving DecidableEq

/-- manga3.py process_chapter_images steps 6-8 combined with
convert_images_to_pdf: validate the downloaded files; when none
survive, return the failure value; otherwise convert, where encOk says
whether the img2pdf call succeeds; a failed conversion also resolves as
the failure value (every exception inside is caught). -/
def manga3_chapterOutcome (outputDir slot title : String)
    (files : List ImgFile) (encOk : Bool) : ChapterOutcome :=
  let valid := manga3_validImages files
  if valid.isEmpty then .failed
  else
    let pages := manga3_convert_pages valid
    if pages.isEmpty then .failed
    else if encOk then .artifact (manga3_pdfPath outputDir slot title) pages
    else .failed

/-- C7: with the encoder succeeding, a chapter whose downloads include
at least one valid image produces an artifact whose pages are exactly
the surviving valid images (a permutation of them, in sorted path
order), rejected images being dropped rather than failing the chapter;
a chapter with zero valid images produces no artifact and resolves as
the chapter-level failure value. -/
theorem manga3_chapter_artifact_iff_valid_images (outputDir slot title : String)
    (files : List ImgFile) :
    (manga3_validImages files ≠ [] →
      manga3_chapterOutcome outputDir slot title files true
        = .artifact (manga3_pdfPath outputDir slot title)
            (pySortedFiles (manga3_validImages files))
      ∧ (pySortedFiles (manga3_validImages files)).Perm (manga3_validImages files))
    ∧ (manga3_validImages files = [] →
      manga3_chapterOutcome outputDir slot title files true = .failed) := by
  have hperm : (pySortedFiles (manga3_validImages files)).Perm (manga3_validImages files) :=
    List.perm_insertionSort _ _
  constructor
  · intro hne
    have hpages : manga3_convert_pages (manga3_validImages files)
        = pySortedFiles (manga3_validImages files) := by
      unfold manga3_convert_pages
      apply List.filter_eq_self.mpr
      intro f hf
      have hmem : f ∈ manga3_validImages files := hperm.subset hf
      have hv : manga3_validImage f = true := (List.mem_filter.mp hmem).2
      simp only [manga3_validImage, Bool.and_eq_true, decide_eq_true_eq] at hv
      simp only [Bool.not_eq_true', Bool.or_eq_false_iff, decide_eq_false_iff_not]
      omega
    have hsne : pySortedFiles (manga3_validImages files) ≠ [] := by
      intro h0
      rw [h0] at hperm
      exact hne hperm.symm.eq_nil
    refine ⟨?_, hperm⟩
    unfold manga3_chapterOutcome
    rw [if_neg (by simpa [List.isEmpty_iff] using hne)]
    simp only [hpages]
    rw [if_neg (by simpa [List.isEmpty_iff] using hsne)]
    simp
  · intro h0
    unfold manga3_chapterOutcome
    simp [h0]

/-- Witness for C7: a chapter with one valid and one too-small image
produces an artifact with exactly the valid page; a chapter with only
the too-small image resolves as failed. -/
theorem manga3_chapter_outcome_witness :
    (manga3_chapterOutcome "o" "5" "t"
        [⟨"a.jpg", 100, 200⟩, ⟨"b.jpg", 5, 5⟩] true
      = .artifact (manga3_pdfPath "o" "5" "t")
          (pySortedFiles (manga3_validImages [⟨"a.jpg", 100, 200⟩, ⟨"b.jpg", 5, 5⟩])))
    ∧ manga3_chapterOutcome "o" "5" "t" [⟨"b.jpg", 5, 5⟩] true = .failed :=
  ⟨((manga3_chapter_artifact_iff_valid_images "o" "5" "t"
      [⟨"a.jpg", 100, 200⟩, ⟨"b.jpg", 5, 5⟩]).1 (by decide)).1,
    (manga3_chapter_artifact_iff_valid_images "o" "5" "t"
      [⟨"b.jpg", 5, 5⟩]).2 (by decide)⟩

/-! ## Partial artifact cleanup (claim C8) -/

/-- File-system effect of the PDF write shared by process_chapter and
process_pdf_batch of the unnamed anime variant: open(pdf_path, "wb")
creates the file; when img2pdf raises, the except block removes the
file if it exists and the function returns None; on success the file
stays.  State is the list of existing paths. -/
def anime_write_pdf (existing : List String) (pdfPath : String) (encOk : Bool) :
    List String × Bool :=
  if encOk then (pdfPath :: existing, true)
  else ((pdfPath :: existing).filter (fun p => p ≠ pdfPath), false)

/-- File-system effect of manga3.py convert_images_to_pdf once the
valid list is non-empty: open(output_path, "wb") creates the file
before img2pdf.convert runs; on an exception the function only logs and
returns False - the file is not removed. -/
def manga3_write_pdf (existing : List String) (outputPath : String)
    (hasValid : Bool) (encOk : Bool) : List String × Bool :=
  if hasValid then (outputPath :: existing, encOk)
  else (existing, false)

/-- C8 (amended): in the anime variant (unnamed part_000, both
process_chapter and process_pdf_batch) a failed encoding deletes the
partially written file, so no file remains at the canonical artifact
path and the failure is reported as a value; manga3.py
convert_images_to_pdf instead leaves the partial file at the output
path (see the counterexample). -/
theorem anime_partial_pdf_removed_on_failure (existing : List String)
    (pdfPath : String) (encOk : Bool) (h : encOk = false) :
    pdfPath ∉ (anime_write_pdf existing pdfPath encOk).1
    ∧ (anime_write_pdf existing pdfPath encOk).2 = false := by
  subst h
  constructor
  · intro hmem
    rw [anime_write_pdf, if_neg (by simp)] at hmem
    simp [List.mem_filter] at hmem
  · rw [anime_write_pdf, if_neg (by simp)]

/-- Witness for C8: the cleanup evaluated on a concrete failing
encoding. -/
theorem anime_partial_pdf_removed_witness :
    "c.pdf" ∉ (anime_write_pdf ["x.pdf"] "c.pdf" false).1
    ∧ (anime_write_pdf ["x.pdf"] "c.pdf" false).2 = false :=
  anime_partial_pdf_removed_on_failure ["x.pdf"] "c.pdf" false rfl

/-- C8 counterexample: manga3.py convert_images_to_pdf with a non-empty
valid list and a failing encoder leaves the partially written file at
the output path while returning the failure value. -/
theorem manga3_partial_pdf_left_on_failure :
    "out.pdf" ∈ (manga3_write_pdf [] "out.pdf" true false).1
    ∧ (manga3_write_pdf [] "out.pdf" true false).2 = false := by
  refine ⟨?_, ?_⟩ <;> decide

/-! ## Download retry (claim C6) -/

/-- One HTTP attempt as the downloader observes it: a transport
exception, or a response with a status code and a Content-Type
header. -/
inductive HttpAttempt where
  | netFail : HttpAttempt
  | response (status : Nat) (contentType : String) : HttpAttempt
deriving DecidableEq

/-- manga2.py download_image, one loop body: requests raises on
transport failure, raise_for_status raises for status codes of 400 and
above, a Content-Type not containing "image" raises ValueError, and
otherwise the bytes are written and the attempt succeeds.  Every raise
lands in the same except block. -/
def attemptOk : HttpAttempt → Bool
  | .netFail => false
  | .response status ct => decide (status < 400) && strContains ct "image"

/-- Observable result of a download call: the returned flag, how many
attempts ran, and the backoff sleeps performed. -/
structure DownloadRun where
  ok : Bool
  attempts : Nat
  sleeps : List Nat
deriving DecidableEq

/-- manga2.py download_image: for attempt in range(3), try the attempt
and return True on success; on any exception sleep 2 ** attempt seconds
and continue; after the loop return False. -/
def manga2_download_aux (env : Nat → HttpAttempt) : Nat → Nat → DownloadRun
  | _, 0 => ⟨false, 0, []⟩
  | attempt, fuel + 1 =>
    if attemptOk (env attempt) then ⟨true, 1, []⟩
    else
      let r := manga2_download_aux env (attempt + 1) fuel
      ⟨r.ok, r.attempts + 1, 2 ^ attempt :: r.sleeps⟩

def manga2_download_image (env : Nat → HttpAttempt) : DownloadRun :=
  manga2_download_aux env 0 3

/-- manga3.py download_image: a single attempt; a 200 response writes
the bytes and returns True, any other status or a transport error
returns False immediately - no retry, no sleep, no content-type
check. -/
def manga3_download_image (env : Nat → HttpAttempt) : DownloadRun :=
  match env 0 with
  | .netFail => ⟨false, 1, []⟩
  | .response status _ => ⟨status == 200, 1, []⟩

/-- C6 (amended): in manga2.py every failure kind - transport error,
non-2xx status, non-image content type - is retried alike: after a
failing first attempt the code sleeps 2^0 = 1 second and tries again,
up to three attempts in total, succeeding exactly when one of the two
remaining attempts succeeds; manga3.py download_image instead performs
a single attempt with no retry and no backoff for any failure,
transient or not. -/
theorem manga2_download_retries_every_failure (env : Nat → HttpAttempt)
    (h : attemptOk (env 0) = false) :
    (manga2_download_image env).sleeps.headD 0 = 1
    ∧ 2 ≤ (manga2_download_image env).attempts
    ∧ (manga2_download_image env).attempts ≤ 3
    ∧ (manga2_download_image env).ok = (attemptOk (env 1) || attemptOk (env 2))
    ∧ ∀ env2 : Nat → HttpAttempt,
        (manga3_download_image env2).attempts = 1 ∧ (manga3_download_image env2).sleeps = [] := by
  have hm3 : ∀ env2 : Nat → HttpAttempt,
      (manga3_download_image env2).attempts = 1 ∧ (manga3_download_image env2).sleeps = [] := by
    intro env2
    cases henv : env2 0 <;> simp [manga3_download_image, henv]
  refine ⟨?_, ?_, ?_, ?_, hm3⟩
  all_goals
    by_cases h1 : attemptOk (env 1) <;> by_cases h2 : attemptOk (env 2) <;>
      simp [manga2_download_image, manga2_download_aux, h, h1, h2]

/-- An environment whose first attempt yields HTTP 404 and whose second
yields a valid image response. -/
def env404 : Nat → HttpAttempt := fun i =>
  if i = 0 then .response 404 "text/html"
  else if i = 1 then .response 200 "image/jpeg"
  else .netFail

/-- Witness for C6: the amended retry behavior evaluated on env404. -/
theorem manga2_download_retries_witness :
    (manga2_download_image env404).sleeps.headD 0 = 1
    ∧ 2 ≤ (manga2_download_image env404).attempts
    ∧ (manga2_download_image env404).attempts ≤ 3
    ∧ (manga2_download_image env404).ok = (attemptOk (env404 1) || attemptOk (env404 2))
    ∧ ∀ env2 : Nat → HttpAttempt,
        (manga3_download_image env2).attempts = 1 ∧ (manga3_download_image env2).sleeps = [] :=
  manga2_download_retries_every_failure env404 (by decide)

/-- C6 counterexample: the first attempt receives a non-2xx response
(HTTP 404) - per the claim a terminal Invalid that is not retried -
yet manga2.py download_image sleeps one second, retries, and returns
success on the second attempt. -/
theorem non2xx_response_is_retried :
    manga2_download_image env404 = ⟨true, 2, [1]⟩
    ∧ (manga2_download_image env404).attempts ≠ 1 := by
  refine ⟨?_, ?_⟩ <;> decide

end Twmanga
